import Mathlib

/-
  Verification development for the libxdp multi-program attachment library
  (src/lib/libxdp/libxdp.c).  The C data model and operations are shallowly
  embedded: machine integers become Nat/Int (with explicit 32-bit masks where
  overflow matters), fallible calls return Except/Option, kernel and
  filesystem state is threaded explicitly, and external collaborators
  (libbpf, the kernel) are modelled as oracles passed in as parameters.
-/

set_option maxHeartbeats 1000000

namespace Libxdp

/-! ## Errno constants (returned negated, as in the C source) -/

def ENOENT : Int := 2
def ENOMEM : Int := 12
def EEXIST : Int := 17
def EISDIR : Int := 21
def EINVAL : Int := 22
def ENOTEMPTY : Int := 39
/-- On Linux ENOTSUP and EOPNOTSUPP are the same errno value. -/
def EOPNOTSUPP : Int := 95
def ENOTSUP : Int := 95

/-! ## BTF model

  Embedding of the parts of the BTF (type-info) object that
  xdp_parse_run_config and its helpers read: types are indexed from 1, each
  type has a name and a kind.  Modifier and typedef kinds are collapsed into
  one constructor because skip_mods_and_typedefs treats them alike. -/

structure BtfMember where
  /-- btf__name_by_offset result for the member name; none models a NULL
      return for an invalid offset. -/
  name : Option String
  type : Nat
  deriving DecidableEq, Repr

structure BtfVarSecinfo where
  type : Nat
  size : Nat
  deriving DecidableEq, Repr

inductive BtfTypeKind where
  | ptrK (t : Nat)
  | arrayK (nelems : Nat)
  | structK (size : Nat) (members : List BtfMember)
  | varK (linkage : Nat) (t : Nat)
  | datasecK (vars : List BtfVarSecinfo)
  /-- a modifier (const/volatile/restrict) or a typedef -/
  | modK (t : Nat)
  | intK
  | funcK
  deriving DecidableEq, Repr

structure BtfType where
  name : String
  kind : BtfTypeKind
  deriving DecidableEq, Repr

structure Btf where
  /-- type with id i is types[i-1]; id 0 is the void type -/
  types : List BtfType
  deriving DecidableEq, Repr

def BTF_VAR_STATIC : Nat := 0
def BTF_VAR_GLOBAL_ALLOCATED : Nat := 1

/-- btf__type_by_id: none models a NULL return (id 0 or out of range). -/
def typeById (b : Btf) (id : Nat) : Option BtfType :=
  if id = 0 then none else b.types.get? (id - 1)

/-! ## The program handle (struct xdp_program) -/

structure BpfProgram where
  /-- bpf_program__size result -/
  size : Nat
  deriving DecidableEq, Repr

def BPF_TAG_SIZE : Nat := 8

/-- Modelled from the spec: the default priority constant lives in the public
    header xdp/libxdp.h, which is not under src/; the spec only says it is an
    implementation-chosen constant, so the concrete value is arbitrary here. -/
def XDP_DEFAULT_RUN_PRIO : Nat := 50

/-- Modelled from the spec: the default chain-call bitmap also lives in
    xdp/libxdp.h; the spec says it is a constant mask of continue actions
    (the XDP_PASS bit, which is action code 2). -/
def XDP_DEFAULT_CHAIN_CALL_ACTIONS : Nat := 4

/-- struct xdp_program.  Pointer fields become Option (or Bool for the
    opaque bpf_obj pointer, of which only NULL-ness is ever inspected);
    prog_name is a String, with the empty string standing for the NULL that
    xdp_program__new leaves there (the spec requires names to be non-empty,
    so nothing is conflated). -/
structure XdpProgram where
  bpf_prog : Option BpfProgram
  bpf_obj : Bool
  btf : Option Btf
  prog_fd : Int
  link_fd : Int
  link_pin_path : Option (List String)
  prog_name : String
  prog_tag : List Nat
  load_time : Nat
  from_external_obj : Bool
  run_prio : Nat
  chain_call_actions : Nat
  deriving DecidableEq, Repr

/-- xdp_program__new: zeroed allocation with the two fds set to -1 and the
    two run-config defaults filled in. -/
def xdp_program__new : XdpProgram :=
  { bpf_prog := none
  , bpf_obj := false
  , btf := none
  , prog_fd := -1
  , link_fd := -1
  , link_pin_path := none
  , prog_name := ""
  , prog_tag := List.replicate BPF_TAG_SIZE 0
  , load_time := 0
  , from_external_obj := false
  , run_prio := XDP_DEFAULT_RUN_PRIO
  , chain_call_actions := XDP_DEFAULT_CHAIN_CALL_ACTIONS }

/-! ## The comparator (cmp_xdp_programs) -/

/-- three-way compare of two Nat keys, as the C pattern
    `if (a != b) return a < b ? -1 : 1;` produces it -/
def natCmp (x y : Nat) : Int :=
  if x = y then 0 else if x < y then -1 else 1

/-- generic lexicographic list compare; with byte elements this is memcmp on
    equal-length buffers, and with the terminator-free char lists of two C
    strings it is strcmp collapsed to sign -/
def listCmp (f : α → α → Int) : List α → List α → Int
  | [], [] => 0
  | [], _ :: _ => -1
  | _ :: _, [] => 1
  | a :: as, b :: bs => if f a b = 0 then listCmp f as bs else f a b

def charCmp (a b : Char) : Int := natCmp a.toNat b.toNat

/-- strcmp collapsed to its sign -/
def strcmpI (a b : String) : Int := listCmp charCmp a.data b.data

/-- memcmp on byte lists, collapsed to its sign -/
def memcmpI (a b : List Nat) : Int := listCmp natCmp a b

/-- the tail of cmp_xdp_programs: tag compare, then load time -/
def cmp_tail (a b : XdpProgram) : Int :=
  if memcmpI a.prog_tag b.prog_tag ≠ 0 then memcmpI a.prog_tag b.prog_tag
  else if a.load_time ≠ b.load_time then
    (if a.load_time < b.load_time then -1 else 1)
  else 0

/-- cmp_xdp_programs: priority, name, loaded-before-unloaded, then (only when
    both handles carry a bpf_prog) program size, then tag, then load time. -/
def cmp_xdp_programs (a b : XdpProgram) : Int :=
  if a.run_prio ≠ b.run_prio then
    (if a.run_prio < b.run_prio then -1 else 1)
  else if strcmpI a.prog_name b.prog_name ≠ 0 then
    strcmpI a.prog_name b.prog_name
  else if a.prog_fd ≥ 0 ∧ b.prog_fd < 0 then -1
  else if a.prog_fd < 0 ∧ b.prog_fd ≥ 0 then 1
  else
    match a.bpf_prog, b.bpf_prog with
    | some pa, some pb =>
        if pa.size ≠ pb.size then (if pa.size < pb.size then -1 else 1)
        else cmp_tail a b
    | _, _ => cmp_tail a b

/-! ## Comparator theory

  A sign comparator is well-behaved when it is antisymmetric (swapping the
  arguments negates the result) and transitive on the non-positive side.
  These two properties are what the total-order claim about
  cmp_xdp_programs needs. -/

def IsCmp (f : α → α → Int) : Prop :=
  (∀ a b, f a b = - f b a) ∧ (∀ a b c, f a b ≤ 0 → f b c ≤ 0 → f a c ≤ 0)

theorem IsCmp.zero_trans {f : α → α → Int} (h : IsCmp f) {a b c : α}
    (hab : f a b = 0) (hbc : f b c = 0) : f a c = 0 := by
  have h1 : f a c ≤ 0 := h.2 a b c (by omega) (by omega)
  have h2 : f c b = 0 := by have := h.1 c b; have := h.1 b c; omega
  have h3 : f b a = 0 := by have := h.1 b a; have := h.1 a b; omega
  have h4 : f c a ≤ 0 := h.2 c b a (by omega) (by omega)
  have := h.1 a c
  omega

theorem IsCmp.lt_of_lt_of_zero {f : α → α → Int} (h : IsCmp f) {a b c : α}
    (hab : f a b < 0) (hbc : f b c = 0) : f a c < 0 := by
  have h1 : f a c ≤ 0 := h.2 a b c (by omega) (by omega)
  rcases lt_or_eq_of_le h1 with h2 | h2
  · exact h2
  · exfalso
    have hca : f c a = 0 := by have := h.1 a c; omega
    have hcb : f c b = 0 := by have := h.1 c b; have := h.1 b c; omega
    have : f b a ≤ 0 := h.2 b c a (by omega) (by omega)
    have := h.1 b a
    omega

theorem IsCmp.lt_of_zero_of_lt {f : α → α → Int} (h : IsCmp f) {a b c : α}
    (hab : f a b = 0) (hbc : f b c < 0) : f a c < 0 := by
  have h1 : f a c ≤ 0 := h.2 a b c (by omega) (by omega)
  rcases lt_or_eq_of_le h1 with h2 | h2
  · exact h2
  · exfalso
    have hca : f c a = 0 := by have := h.1 a c; omega
    have : f c b ≤ 0 := h.2 c a b (by omega) (by omega)
    have := h.1 c b
    omega

theorem IsCmp.lt_trans {f : α → α → Int} (h : IsCmp f) {a b c : α}
    (hab : f a b < 0) (hbc : f b c < 0) : f a c < 0 := by
  have h1 : f a c ≤ 0 := h.2 a b c (by omega) (by omega)
  rcases lt_or_eq_of_le h1 with h2 | h2
  · exact h2
  · exfalso
    have hca : f c a = 0 := by have := h.1 a c; omega
    have : f c b ≤ 0 := h.2 c a b (by omega) (by omega)
    have := h.1 c b
    omega

/-- lexicographic chaining of two sign comparators, the shape of the
    early-return chain inside cmp_xdp_programs -/
def lexC (k r : α → α → Int) (a b : α) : Int :=
  if k a b = 0 then r a b else k a b

theorem IsCmp.lexC {k r : α → α → Int} (hk : IsCmp k) (hr : IsCmp r) :
    IsCmp (Libxdp.lexC k r) := by
  constructor
  · intro a b
    unfold Libxdp.lexC
    have h1 := hk.1 a b
    by_cases h : k a b = 0
    · have h2 : k b a = 0 := by omega
      simp [h, h2, hr.1 a b]
    · have h2 : ¬ k b a = 0 := by omega
      simp [h, h2]
      omega
  · intro a b c hab hbc
    unfold Libxdp.lexC at *
    by_cases h1 : k a b = 0
    · by_cases h2 : k b c = 0
      · have h3 : k a c = 0 := hk.zero_trans h1 h2
        simp [h1, h3] at *
        simp [h2] at hbc
        exact hr.2 a b c hab hbc
      · have hlt : k b c < 0 := by simp [h2] at hbc; omega
        have h3 : k a c < 0 := hk.lt_of_zero_of_lt h1 hlt
        simp [show ¬ k a c = 0 by omega]
        omega
    · have hlt : k a b < 0 := by simp [h1] at hab; omega
      by_cases h2 : k b c = 0
      · have h3 : k a c < 0 := hk.lt_of_lt_of_zero hlt h2
        simp [show ¬ k a c = 0 by omega]
        omega
      · have hlt2 : k b c < 0 := by simp [h2] at hbc; omega
        have h3 : k a c < 0 := hk.lt_trans hlt hlt2
        simp [show ¬ k a c = 0 by omega]
        omega

theorem natCmp_isCmp_of_key (g : α → Nat) : IsCmp (fun a b => natCmp (g a) (g b)) := by
  constructor
  · intro a b
    simp only [natCmp]
    split_ifs <;> omega
  · intro a b c hab hbc
    simp only [natCmp] at *
    split_ifs at * <;> omega

theorem listCmp_isCmp (f : α → α → Int) (hf : IsCmp f) : IsCmp (listCmp f) := by
  constructor
  · intro as
    induction as with
    | nil => intro bs; cases bs <;> simp [listCmp]
    | cons a as ih =>
      intro bs
      cases bs with
      | nil => simp [listCmp]
      | cons b bs =>
        have h1 := hf.1 a b
        by_cases h : f a b = 0
        · have h2 : f b a = 0 := by omega
          simp [listCmp, h, h2, ih bs]
        · have h2 : ¬ f b a = 0 := by omega
          simp [listCmp, h, h2]
          omega
  · intro as
    induction as with
    | nil =>
      intro bs cs hab hbc
      cases bs <;> cases cs <;> simp [listCmp] at *
    | cons a as ih =>
      intro bs cs hab hbc
      cases bs with
      | nil => cases cs <;> simp [listCmp] at *
      | cons b bs =>
        cases cs with
        | nil => simp [listCmp] at *
        | cons c cs =>
          simp only [listCmp] at *
          by_cases h1 : f a b = 0
          · by_cases h2 : f b c = 0
            · have h3 : f a c = 0 := hf.zero_trans h1 h2
              simp [h1, h3] at *
              simp [h2] at hbc
              exact ih bs cs hab hbc
            · have hlt : f b c < 0 := by simp [h2] at hbc; omega
              have h3 : f a c < 0 := hf.lt_of_zero_of_lt h1 hlt
              simp [show ¬ f a c = 0 by omega]
              omega
          · have hlt : f a b < 0 := by simp [h1] at hab; omega
            by_cases h2 : f b c = 0
            · have h3 : f a c < 0 := hf.lt_of_lt_of_zero hlt h2
              simp [show ¬ f a c = 0 by omega]
              omega
            · have hlt2 : f b c < 0 := by simp [h2] at hbc; omega
              have h3 : f a c < 0 := hf.lt_trans hlt hlt2
              simp [show ¬ f a c = 0 by omega]
              omega

theorem charCmp_isCmp : IsCmp charCmp := natCmp_isCmp_of_key Char.toNat

theorem strcmpI_isCmp : IsCmp (fun a b : String => strcmpI a b) := by
  have h := listCmp_isCmp charCmp charCmp_isCmp
  exact ⟨fun a b => h.1 a.data b.data,
         fun a b c => h.2 a.data b.data c.data⟩

theorem memcmpI_isCmp : IsCmp memcmpI := listCmp_isCmp natCmp (natCmp_isCmp_of_key id)

/-! ## The comparator as a lexicographic key chain

  cmpU is the key chain cmp_xdp_programs computes when the two handles agree
  on whether they carry a bpf_prog; cmpM is the chain computed when exactly
  one of them does (the size key is then skipped).  These rewrites isolate
  the one step of cmp_xdp_programs that is not a fixed key comparison. -/

def prioCmp (a b : XdpProgram) : Int := natCmp a.run_prio b.run_prio

def nameCmp (a b : XdpProgram) : Int := strcmpI a.prog_name b.prog_name

def fdKey (p : XdpProgram) : Nat := if p.prog_fd ≥ 0 then 0 else 1

def fdCmp (a b : XdpProgram) : Int := natCmp (fdKey a) (fdKey b)

def sizeKey (p : XdpProgram) : Nat :=
  match p.bpf_prog with
  | some bp => bp.size
  | none => 0

def sizeCmp (a b : XdpProgram) : Int := natCmp (sizeKey a) (sizeKey b)

def tagCmp (a b : XdpProgram) : Int := memcmpI a.prog_tag b.prog_tag

def timeCmp (a b : XdpProgram) : Int := natCmp a.load_time b.load_time

def cmpU : XdpProgram → XdpProgram → Int :=
  lexC prioCmp (lexC nameCmp (lexC fdCmp (lexC sizeCmp (lexC tagCmp timeCmp))))

def cmpM : XdpProgram → XdpProgram → Int :=
  lexC prioCmp (lexC nameCmp (lexC fdCmp (lexC tagCmp timeCmp)))

theorem prioCmp_isCmp : IsCmp prioCmp := natCmp_isCmp_of_key XdpProgram.run_prio

theorem nameCmp_isCmp : IsCmp nameCmp :=
  ⟨fun a b => strcmpI_isCmp.1 a.prog_name b.prog_name,
   fun a b c => strcmpI_isCmp.2 a.prog_name b.prog_name c.prog_name⟩

theorem fdCmp_isCmp : IsCmp fdCmp := natCmp_isCmp_of_key fdKey

theorem sizeCmp_isCmp : IsCmp sizeCmp := natCmp_isCmp_of_key sizeKey

theorem tagCmp_isCmp : IsCmp tagCmp :=
  ⟨fun a b => memcmpI_isCmp.1 a.prog_tag b.prog_tag,
   fun a b c => memcmpI_isCmp.2 a.prog_tag b.prog_tag c.prog_tag⟩

theorem timeCmp_isCmp : IsCmp timeCmp := natCmp_isCmp_of_key XdpProgram.load_time

theorem cmpU_isCmp : IsCmp cmpU :=
  prioCmp_isCmp.lexC (nameCmp_isCmp.lexC (fdCmp_isCmp.lexC
    (sizeCmp_isCmp.lexC (tagCmp_isCmp.lexC timeCmp_isCmp))))

theorem cmpM_isCmp : IsCmp cmpM :=
  prioCmp_isCmp.lexC (nameCmp_isCmp.lexC (fdCmp_isCmp.lexC
    (tagCmp_isCmp.lexC timeCmp_isCmp)))

theorem cmp_tail_eq (a b : XdpProgram) :
    cmp_tail a b = lexC tagCmp timeCmp a b := by
  simp only [cmp_tail, lexC, tagCmp, timeCmp, natCmp]
  by_cases h1 : memcmpI a.prog_tag b.prog_tag = 0
  · simp only [h1, ite_true, ne_eq, not_true_eq_false, ite_false, not_false_eq_true]
    by_cases h2 : a.load_time = b.load_time <;> simp [h2]
  · simp [h1]

/-- the head of the comparator chain (priority, name, loaded-first), shared
    by the uniform and mixed rewrites -/
theorem cmp_head_eq (a b : XdpProgram) (tail tailU : Int)
    (ht : tail = tailU) :
    (if a.run_prio ≠ b.run_prio then
      (if a.run_prio < b.run_prio then (-1 : Int) else 1)
     else if strcmpI a.prog_name b.prog_name ≠ 0 then
       strcmpI a.prog_name b.prog_name
     else if a.prog_fd ≥ 0 ∧ b.prog_fd < 0 then -1
     else if a.prog_fd < 0 ∧ b.prog_fd ≥ 0 then 1
     else tail) =
    lexC prioCmp (lexC nameCmp (lexC fdCmp (fun _ _ => tailU))) a b := by
  subst ht
  simp only [lexC, prioCmp, nameCmp, fdCmp, natCmp, fdKey]
  by_cases h1 : a.run_prio = b.run_prio
  · simp only [h1, ite_true, ne_eq, not_true_eq_false, ite_false]
    by_cases h2 : strcmpI a.prog_name b.prog_name = 0
    · simp only [h2, ite_true, not_true_eq_false, ite_false]
      by_cases ha0 : a.prog_fd ≥ 0 <;> by_cases hb0 : b.prog_fd ≥ 0 <;>
        simp [ha0, hb0] <;> omega
    · simp [h2]
  · have hne : (if a.run_prio < b.run_prio then (-1 : Int) else 1) ≠ 0 := by
      split_ifs <;> omega
    simp [h1, natCmp, hne]

theorem cmp_eq_cmpU (a b : XdpProgram)
    (h : a.bpf_prog.isSome = b.bpf_prog.isSome) :
    cmp_xdp_programs a b = cmpU a b := by
  rcases ha : a.bpf_prog with _ | pa <;> rcases hb : b.bpf_prog with _ | pb
  · show (if a.run_prio ≠ b.run_prio then _ else _) = _
    rw [show cmpU a b =
        lexC prioCmp (lexC nameCmp (lexC fdCmp
          (fun _ _ => lexC sizeCmp (lexC tagCmp timeCmp) a b))) a b from rfl]
    simp only [cmp_xdp_programs, ha, hb]
    refine cmp_head_eq a b _ _ ?_
    have hsz : sizeCmp a b = 0 := by simp [sizeCmp, sizeKey, ha, hb, natCmp]
    rw [show lexC sizeCmp (lexC tagCmp timeCmp) a b = lexC tagCmp timeCmp a b by
      simp [lexC, hsz]]
    exact cmp_tail_eq a b
  · rw [ha, hb] at h; simp at h
  · rw [ha, hb] at h; simp at h
  · show cmp_xdp_programs a b = _
    rw [show cmpU a b =
        lexC prioCmp (lexC nameCmp (lexC fdCmp
          (fun _ _ => lexC sizeCmp (lexC tagCmp timeCmp) a b))) a b from rfl]
    simp only [cmp_xdp_programs, ha, hb]
    refine cmp_head_eq a b _ _ ?_
    have hsz : sizeCmp a b = natCmp pa.size pb.size := by
      simp [sizeCmp, sizeKey, ha, hb]
    by_cases h2 : pa.size = pb.size
    · rw [show lexC sizeCmp (lexC tagCmp timeCmp) a b = lexC tagCmp timeCmp a b by
        simp [lexC, hsz, natCmp, h2]]
      simp only [h2, ne_eq, not_true_eq_false, ite_false]
      exact cmp_tail_eq a b
    · have hne : sizeCmp a b ≠ 0 := by
        rw [hsz]; simp only [natCmp, h2, ite_false]; split_ifs <;> omega
      rw [show lexC sizeCmp (lexC tagCmp timeCmp) a b = sizeCmp a b by
        simp [lexC, hne]]
      simp only [h2, ne_eq, not_false_eq_true, ite_true, hsz, natCmp, ite_false]

theorem cmp_eq_cmpM (a b : XdpProgram)
    (h : a.bpf_prog.isSome ≠ b.bpf_prog.isSome) :
    cmp_xdp_programs a b = cmpM a b := by
  have hmix : (match a.bpf_prog, b.bpf_prog with
      | some pa, some pb =>
          if pa.size ≠ pb.size then (if pa.size < pb.size then (-1 : Int) else 1)
          else cmp_tail a b
      | _, _ => cmp_tail a b) = cmp_tail a b := by
    rcases ha : a.bpf_prog with _ | pa <;> rcases hb : b.bpf_prog with _ | pb
    · rfl
    · rfl
    · rfl
    · rw [ha, hb] at h; simp at h
  rw [show cmpM a b =
      lexC prioCmp (lexC nameCmp (lexC fdCmp
        (fun _ _ => lexC tagCmp timeCmp a b))) a b from rfl]
  simp only [cmp_xdp_programs, hmix]
  exact cmp_head_eq a b _ _ (cmp_tail_eq a b)

theorem cmp_antisym (a b : XdpProgram) :
    cmp_xdp_programs a b = - cmp_xdp_programs b a := by
  by_cases h : a.bpf_prog.isSome = b.bpf_prog.isSome
  · rw [cmp_eq_cmpU a b h, cmp_eq_cmpU b a h.symm]
    exact cmpU_isCmp.1 a b
  · rw [cmp_eq_cmpM a b h, cmp_eq_cmpM b a (Ne.symm h)]
    exact cmpM_isCmp.1 a b

theorem cmp_trans_uniform (a b c : XdpProgram)
    (hab : a.bpf_prog.isSome = b.bpf_prog.isSome)
    (hbc : b.bpf_prog.isSome = c.bpf_prog.isSome) :
    cmp_xdp_programs a b ≤ 0 → cmp_xdp_programs b c ≤ 0 →
    cmp_xdp_programs a c ≤ 0 := by
  rw [cmp_eq_cmpU a b hab, cmp_eq_cmpU b c hbc, cmp_eq_cmpU a c (hab.trans hbc)]
  exact cmpU_isCmp.2 a b c

/-- Two sorted permutations of the same handles coincide as long as no two
    distinct handles of the list compare equal. -/
theorem eq_of_perm_of_sorted_of_distinct :
    ∀ (l1 l2 : List XdpProgram), l1.Perm l2 →
    l1.Sorted (fun x y => cmp_xdp_programs x y ≤ 0) →
    l2.Sorted (fun x y => cmp_xdp_programs x y ≤ 0) →
    (∀ x ∈ l1, ∀ y ∈ l1, cmp_xdp_programs x y = 0 → x = y) →
    l1 = l2 := by
  intro l1
  induction l1 with
  | nil =>
    intro l2 hp _ _ _
    exact (hp.symm.eq_nil).symm
  | cons a t1 ih =>
    intro l2 hp hs1 hs2 hties
    cases l2 with
    | nil => exact absurd hp.eq_nil (by simp)
    | cons b t2 =>
      have hamem : a ∈ b :: t2 := hp.subset (List.mem_cons_self a t1)
      have hbmem : b ∈ a :: t1 := hp.symm.subset (List.mem_cons_self b t2)
      have hab : a = b := by
        by_cases hcase : a = b
        · exact hcase
        · exfalso
          have hat2 : a ∈ t2 := by
            rcases List.mem_cons.mp hamem with h | h
            · exact absurd h hcase
            · exact h
          have hbt1 : b ∈ t1 := by
            rcases List.mem_cons.mp hbmem with h | h
            · exact absurd h.symm hcase
            · exact h
          have hrab : cmp_xdp_programs a b ≤ 0 :=
            (List.sorted_cons.mp hs1).1 b hbt1
          have hrba : cmp_xdp_programs b a ≤ 0 :=
            (List.sorted_cons.mp hs2).1 a hat2
          have hz : cmp_xdp_programs a b = 0 := by
            have := cmp_antisym a b
            omega
          exact hcase (hties a (List.mem_cons_self a t1) b hbmem hz)
      subst hab
      have htails : t1.Perm t2 := hp.cons_inv
      have h1 : t1.Sorted (fun x y => cmp_xdp_programs x y ≤ 0) :=
        (List.sorted_cons.mp hs1).2
      have h2 : t2.Sorted (fun x y => cmp_xdp_programs x y ≤ 0) :=
        (List.sorted_cons.mp hs2).2
      have hties2 : ∀ x ∈ t1, ∀ y ∈ t1, cmp_xdp_programs x y = 0 → x = y :=
        fun x hx y hy => hties x (List.mem_cons_of_mem a hx) y (List.mem_cons_of_mem a hy)
      rw [ih t2 htails h1 h2 hties2]

/-! ## Claim C1 -/

/-- concrete handles witnessing the non-transitivity of cmp_xdp_programs:
    three loaded handles with equal priority and name, where exactly one
    lacks a bpf_prog, so the size key is consulted for some pairs and
    skipped for others -/
def cexA : XdpProgram :=
  { xdp_program__new with
    bpf_prog := some ⟨1⟩, bpf_obj := true, prog_fd := 1,
    prog_name := "a", prog_tag := [2, 0, 0, 0, 0, 0, 0, 0], run_prio := 10 }

def cexB : XdpProgram :=
  { xdp_program__new with
    bpf_prog := some ⟨2⟩, bpf_obj := true, prog_fd := 1,
    prog_name := "a", prog_tag := [0, 0, 0, 0, 0, 0, 0, 0], run_prio := 10 }

def cexC : XdpProgram :=
  { xdp_program__new with
    bpf_prog := none, bpf_obj := false, prog_fd := 1,
    prog_name := "a", prog_tag := [1, 0, 0, 0, 0, 0, 0, 0], run_prio := 10 }

def cexD : XdpProgram :=
  { xdp_program__new with
    bpf_prog := some ⟨3⟩, bpf_obj := true, prog_fd := 1,
    prog_name := "a", prog_tag := [3, 0, 0, 0, 0, 0, 0, 0], run_prio := 10 }

/-- C1 counterexample: cmp_xdp_programs is not transitive, as the claim
    asserts it is.  With cexA ≤ cexB (by program size), cexB ≤ cexC (sizes
    skipped, tags compared) we still get cexA > cexC (tags compared the
    other way), because the size key is consulted exactly when both handles
    carry a bpf_prog, not only for unloaded handles. -/
theorem comparator_transitivity_counterexample :
    cmp_xdp_programs cexA cexB ≤ 0 ∧ cmp_xdp_programs cexB cexC ≤ 0 ∧
    ¬ cmp_xdp_programs cexA cexC ≤ 0 := by decide

/-- C1 (amended): cmp_xdp_programs compares priority, then name byte-wise,
    then loaded-before-unloaded, then program size whenever BOTH handles
    carry a bpf_prog (loaded or not), then tag, then load time.  It is
    anti-symmetric on all handles; it is transitive on every set of handles
    that agree on whether they carry a bpf_prog; and sorting two
    permutations of a handle list on it yields identical sequences provided
    no two distinct handles of the list compare equal. -/
theorem comparator_total_order_amended :
    (∀ a b : XdpProgram, cmp_xdp_programs a b = - cmp_xdp_programs b a) ∧
    (∀ a b c : XdpProgram,
      a.bpf_prog.isSome = b.bpf_prog.isSome →
      b.bpf_prog.isSome = c.bpf_prog.isSome →
      cmp_xdp_programs a b ≤ 0 → cmp_xdp_programs b c ≤ 0 →
      cmp_xdp_programs a c ≤ 0) ∧
    (∀ l1 l2 : List XdpProgram, l1.Perm l2 →
      l1.Sorted (fun x y => cmp_xdp_programs x y ≤ 0) →
      l2.Sorted (fun x y => cmp_xdp_programs x y ≤ 0) →
      (∀ x ∈ l1, ∀ y ∈ l1, cmp_xdp_programs x y = 0 → x = y) →
      l1 = l2) :=
  ⟨cmp_antisym, cmp_trans_uniform, eq_of_perm_of_sorted_of_distinct⟩

/-- C1 witness: the amended transitivity applied to three concrete handles
    that all carry a bpf_prog. -/
theorem comparator_total_order_amended_witness :
    cmp_xdp_programs cexA cexD ≤ 0 :=
  comparator_total_order_amended.2.1 cexA cexB cexD
    (by decide) (by decide) (by decide) (by decide)

/-! ## The metadata parser (xdp_parse_run_config and helpers) -/

def XDP_RUN_CONFIG_SEC : String := ".xdp_run_config"

/-- skip_mods_and_typedefs: follow modifier/typedef links.  The C loop has
    no bound; real BTF is acyclic, and the fuel (number of types plus one)
    is enough to traverse any acyclic chain. -/
def skip_mods_and_typedefs (b : Btf) : Nat → Nat → Option BtfType
  | 0, _ => none
  | fuel + 1, id =>
    match typeById b id with
    | none => none
    | some t =>
      match t.kind with
      | .modK t2 => skip_mods_and_typedefs b fuel t2
      | _ => some t

def resolveFuel (b : Btf) : Nat := b.types.length + 1

/-- get_field_int: the member type (after stripping modifiers and typedefs)
    must be a pointer to an array; the array element count is the value.
    none models the false return (the caller turns it into -EINVAL). -/
def get_field_int (b : Btf) (m : BtfMember) : Option Nat :=
  match skip_mods_and_typedefs b (resolveFuel b) m.type with
  | some t =>
    match t.kind with
    | .ptrK tid =>
      match typeById b tid with
      | some arrT =>
        match arrT.kind with
        | .arrayK n => some n
        | _ => none
      | none => none
    | _ => none
  | none => none

def xdp_action_names : List String :=
  ["XDP_ABORTED", "XDP_DROP", "XDP_PASS", "XDP_TX", "XDP_REDIRECT"]

/-- get_xdp_action: index of the first action name equal to the argument
    (the C loop scans xdp_action_names in order) -/
def get_xdp_action (s : String) : Option Nat :=
  if s = "XDP_ABORTED" then some 0
  else if s = "XDP_DROP" then some 1
  else if s = "XDP_PASS" then some 2
  else if s = "XDP_TX" then some 3
  else if s = "XDP_REDIRECT" then some 4
  else none

/-- xdp_program__set_chain_call_enabled: set or clear one bit of the 32-bit
    chain_call_actions bitmap -/
def xdp_program__set_chain_call_enabled (p : XdpProgram) (action : Nat)
    (enabled : Bool) : XdpProgram :=
  if enabled then
    { p with chain_call_actions := p.chain_call_actions ||| (1 <<< action) }
  else
    { p with chain_call_actions :=
        p.chain_call_actions &&& (4294967295 ^^^ (1 <<< action)) }

/-- xdp_program__chain_call_enabled -/
def xdp_program__chain_call_enabled (p : XdpProgram) (action : Nat) : Bool :=
  p.chain_call_actions.testBit action

/-- one iteration of the member loop of xdp_parse_run_config: "priority"
    stores the resolved count as the priority, an action name drives the
    chain-call bit (non-zero count sets it, zero clears it, as the C call
    passes the count through an implicit conversion to bool), anything else
    is -ENOTSUP, and an unresolvable field type or a NULL member name is
    -EINVAL -/
def member_step (b : Btf) (p : XdpProgram) (m : BtfMember) :
    Except Int XdpProgram :=
  match m.name with
  | none => .error (-EINVAL)
  | some mname =>
    if mname = "priority" then
      match get_field_int b m with
      | some v => .ok { p with run_prio := v }
      | none => .error (-EINVAL)
    else
      match get_xdp_action mname with
      | some act =>
        match get_field_int b m with
        | some v => .ok (xdp_program__set_chain_call_enabled p act (decide (v ≠ 0)))
        | none => .error (-EINVAL)
      | none => .error (-ENOTSUP)

/-- the member loop of xdp_parse_run_config -/
def members_loop (b : Btf) : XdpProgram → List BtfMember → Except Int XdpProgram
  | p, [] => .ok p
  | p, m :: ms =>
    match member_step b p m with
    | .ok q => members_loop b q ms
    | .error e => .error e

/-- processing of one datasec variable entry: none means the variable name
    does not match "_" ++ prog_name (the loop continues); some r means the
    loop returns r immediately.  An unresolvable variable id is also skipped
    (the C code would dereference NULL there, which no valid BTF produces). -/
def handle_var (b : Btf) (structName : String) (p : XdpProgram)
    (vi : BtfVarSecinfo) : Option (Except Int XdpProgram) :=
  match typeById b vi.type with
  | none => none
  | some var =>
    if var.name ≠ structName then none
    else some (
      match var.kind with
      | .varK linkage vtype =>
        if linkage ≠ BTF_VAR_GLOBAL_ALLOCATED ∧ linkage ≠ BTF_VAR_STATIC then
          .error (-EOPNOTSUPP)
        else
          match skip_mods_and_typedefs b (resolveFuel b) vtype with
          | some defT =>
            match defT.kind with
            | .structK size members =>
              if size > vi.size then .error (-EINVAL)
              else members_loop b p members
            | _ => .error (-EINVAL)
          | none => .error (-EINVAL)
      | _ => .error (-EINVAL))

/-- the variable loop of xdp_parse_run_config: the FIRST matching variable
    decides the outcome; if none matches the section, the result is -ENOENT -/
def vars_loop (b : Btf) (structName : String) (p : XdpProgram) :
    List BtfVarSecinfo → Except Int XdpProgram
  | [] => .error (-ENOENT)
  | vi :: rest =>
    match handle_var b structName p vi with
    | some r => r
    | none => vars_loop b structName p rest

/-- the datasec scan of xdp_parse_run_config: first datasec named
    ".xdp_run_config", in type-id order -/
def find_run_config_sec : List BtfType → Option (List BtfVarSecinfo)
  | [] => none
  | t :: ts =>
    match t.kind with
    | .datasecK vis =>
      if t.name = XDP_RUN_CONFIG_SEC then some vis else find_run_config_sec ts
    | _ => find_run_config_sec ts

/-- xdp_parse_run_config.  The C function mutates the handle in place and
    returns an int; errors are modelled as Except.error and success carries
    the updated handle (on the paths where C returns an error, every caller
    discards the handle, so the partial in-place mutation is unobservable). -/
def xdp_parse_run_config (p : XdpProgram) : Except Int XdpProgram :=
  match p.btf with
  | none => .error (-ENOENT)
  | some b =>
    match find_run_config_sec b.types with
    | none => .error (-ENOENT)
    | some vis => vars_loop b ("_" ++ p.prog_name) p vis

deriving instance DecidableEq for Except

/-! ## Claim C3 -/

/-- BTF fixture whose run-config struct for "foo" carries a member name that
    is neither "priority" nor an action name -/
def btfBadMember : Btf :=
  ⟨[ ⟨"", .ptrK 2⟩
   , ⟨"", .arrayK 7⟩
   , ⟨"", .structK 8 [⟨some "frobnicate", 1⟩]⟩
   , ⟨"_foo", .varK 1 3⟩
   , ⟨".xdp_run_config", .datasecK [⟨4, 8⟩]⟩ ]⟩

def pBadMember : XdpProgram :=
  { xdp_program__new with prog_name := "foo", btf := some btfBadMember }

/-- C3 counterexample: a run-config member named "frobnicate" makes the
    parser fail with -ENOTSUP (Unsupported, 95, the same errno as
    EOPNOTSUPP), not with -EINVAL as the claim states. -/
theorem unknown_member_counterexample :
    xdp_parse_run_config pBadMember = .error (-ENOTSUP) ∧
    ¬ xdp_parse_run_config pBadMember = .error (-EINVAL) := by decide

/-- C3 (amended): a run-config struct member whose name is neither
    "priority" nor one of the five action names makes the member loop fail
    with -ENOTSUP, which on Linux is the same errno as the -EOPNOTSUPP
    returned for rejected variable linkage; -EINVAL is reserved for
    malformed entries (NULL member name, non pointer-to-array member type,
    non-var kind, oversized struct). -/
theorem unknown_member_rejected_unsupported
    (b : Btf) (p : XdpProgram) (m : BtfMember) (mname : String)
    (hn : m.name = some mname) (hpr : mname ≠ "priority")
    (hact : get_xdp_action mname = none) :
    member_step b p m = .error (-ENOTSUP) ∧
    member_step b p m ≠ .error (-EINVAL) := by
  have hstep : member_step b p m = .error (-ENOTSUP) := by
    simp [member_step, hn, hpr, hact]
  refine ⟨hstep, ?_⟩
  rw [hstep]
  intro hcontra
  simp only [Except.error.injEq] at hcontra
  norm_num [ENOTSUP, EINVAL] at hcontra

/-- C3 witness: the amended statement at the concrete "frobnicate" member. -/
theorem unknown_member_rejected_unsupported_witness :
    member_step btfBadMember pBadMember ⟨some "frobnicate", 1⟩ =
      .error (-ENOTSUP) ∧
    member_step btfBadMember pBadMember ⟨some "frobnicate", 1⟩ ≠
      .error (-EINVAL) :=
  unknown_member_rejected_unsupported btfBadMember pBadMember
    ⟨some "frobnicate", 1⟩ "frobnicate" rfl (by decide) (by decide)

/-! ## Claim C4 -/

theorem get_xdp_action_lt (s : String) (a : Nat)
    (h : get_xdp_action s = some a) : a < 32 := by
  unfold get_xdp_action at h
  split_ifs at h <;> simp_all <;> omega

theorem get_xdp_action_priority : get_xdp_action "priority" = none := by decide

/-- bit-level behaviour of the 32-bit set/clear helper -/
theorem set_chain_call_testBit (p : XdpProgram) (act : Nat) (en : Bool)
    (hlt : act < 32) :
    ((xdp_program__set_chain_call_enabled p act en).chain_call_actions.testBit
      act = en) ∧
    (∀ j, j < 32 → j ≠ act →
      (xdp_program__set_chain_call_enabled p act en).chain_call_actions.testBit
        j = p.chain_call_actions.testBit j) := by
  have hm : ∀ i : Nat, Nat.testBit 4294967295 i = decide (i < 32) := by
    intro i
    rw [show (4294967295 : Nat) = 2 ^ 32 - 1 by norm_num]
    exact Nat.testBit_two_pow_sub_one 32 i
  unfold xdp_program__set_chain_call_enabled
  cases en with
  | true =>
    constructor
    · simp [Nat.testBit_or, Nat.one_shiftLeft, Nat.testBit_two_pow_self]
    · intro j hj hja
      simp [Nat.testBit_or, Nat.one_shiftLeft,
        Nat.testBit_two_pow_of_ne (fun he => hja he.symm)]
  | false =>
    constructor
    · simp [Nat.testBit_and, Nat.testBit_xor, Nat.one_shiftLeft, hm, hlt,
        Nat.testBit_two_pow_self]
    · intro j hj hja
      simp [Nat.testBit_and, Nat.testBit_xor, Nat.one_shiftLeft, hm, hj,
        Nat.testBit_two_pow_of_ne (fun he => hja he.symm)]

/-- C4: when the parser processes a member of the matched run-config struct,
    a member named "priority" whose type resolves to a pointer to an array
    of n elements stores n as the handle priority; a member named after an
    action with element count n sets the chain-call bit of that action when n is
    non-zero and clears it when n is zero, leaving the priority and all
    other bits of the 32-bit bitmap unchanged. -/
theorem run_config_member_semantics :
    (∀ (b : Btf) (p : XdpProgram) (m : BtfMember) (tname aname : String)
       (tid n : Nat),
      m.name = some "priority" →
      skip_mods_and_typedefs b (resolveFuel b) m.type = some ⟨tname, .ptrK tid⟩ →
      typeById b tid = some ⟨aname, .arrayK n⟩ →
      member_step b p m = .ok { p with run_prio := n }) ∧
    (∀ (b : Btf) (p : XdpProgram) (m : BtfMember) (mname tname aname : String)
       (act tid n : Nat),
      m.name = some mname → get_xdp_action mname = some act →
      skip_mods_and_typedefs b (resolveFuel b) m.type = some ⟨tname, .ptrK tid⟩ →
      typeById b tid = some ⟨aname, .arrayK n⟩ →
      member_step b p m =
        .ok (xdp_program__set_chain_call_enabled p act (decide (n ≠ 0))) ∧
      (xdp_program__set_chain_call_enabled p act (decide (n ≠ 0))).run_prio
        = p.run_prio ∧
      (xdp_program__set_chain_call_enabled p act
        (decide (n ≠ 0))).chain_call_actions.testBit act = decide (n ≠ 0) ∧
      (∀ j, j < 32 → j ≠ act →
        (xdp_program__set_chain_call_enabled p act
          (decide (n ≠ 0))).chain_call_actions.testBit j
          = p.chain_call_actions.testBit j)) := by
  constructor
  · intro b p m tname aname tid n hn hskip htid
    simp [member_step, get_field_int, hn, hskip, htid]
  · intro b p m mname tname aname act tid n hn hact hskip htid
    have hpr : mname ≠ "priority" := by
      intro he
      rw [he, get_xdp_action_priority] at hact
      exact Option.noConfusion hact
    have hlt : act < 32 := get_xdp_action_lt mname act hact
    refine ⟨?_, ?_, ?_, ?_⟩
    · simp [member_step, get_field_int, hn, hpr, hact, hskip, htid]
    · unfold xdp_program__set_chain_call_enabled
      split_ifs <;> rfl
    · exact (set_chain_call_testBit p act (decide (n ≠ 0)) hlt).1
    · exact (set_chain_call_testBit p act (decide (n ≠ 0)) hlt).2

/-- BTF fixture for the spec scenario S4: _foo declares priority -> 15,
    XDP_PASS -> 1, XDP_DROP -> 0 -/
def btfS4 : Btf :=
  ⟨[ ⟨"", .ptrK 2⟩
   , ⟨"", .arrayK 15⟩
   , ⟨"", .ptrK 4⟩
   , ⟨"", .arrayK 1⟩
   , ⟨"", .ptrK 6⟩
   , ⟨"", .arrayK 0⟩
   , ⟨"", .structK 24 [⟨some "priority", 1⟩, ⟨some "XDP_PASS", 3⟩,
        ⟨some "XDP_DROP", 5⟩]⟩
   , ⟨"_foo", .varK 1 7⟩
   , ⟨".xdp_run_config", .datasecK [⟨8, 24⟩]⟩ ]⟩

def pFoo : XdpProgram :=
  { xdp_program__new with prog_name := "foo", btf := some btfS4 }

/-- C4 witness: both parts applied at concrete members of the S4 fixture. -/
theorem run_config_member_semantics_witness :
    member_step btfS4 pFoo ⟨some "priority", 1⟩ =
      .ok { pFoo with run_prio := 15 } ∧
    member_step btfS4 pFoo ⟨some "XDP_PASS", 3⟩ =
      .ok (xdp_program__set_chain_call_enabled pFoo 2 (decide ((1 : Nat) ≠ 0))) :=
  ⟨run_config_member_semantics.1 btfS4 pFoo ⟨some "priority", 1⟩ "" "" 2 15
     rfl (by decide) (by decide),
   (run_config_member_semantics.2 btfS4 pFoo ⟨some "XDP_PASS", 3⟩ "XDP_PASS"
     "" "" 2 4 1 rfl (by decide) (by decide) (by decide)).1⟩

/-! ## Claim C10 -/

/-- C10: the variable loop acts on the first matching entry only: if the
    head entry matches (handle_var returns some outcome), that outcome is
    the result of the whole loop, whatever follows; if the head entry does
    not match, the loop continues with the tail. -/
theorem run_config_first_match_only :
    (∀ (b : Btf) (sn : String) (p : XdpProgram) (vi : BtfVarSecinfo)
       (rest : List BtfVarSecinfo) (r : Except Int XdpProgram),
      handle_var b sn p vi = some r →
      vars_loop b sn p (vi :: rest) = r) ∧
    (∀ (b : Btf) (sn : String) (p : XdpProgram) (vi : BtfVarSecinfo)
       (rest : List BtfVarSecinfo),
      handle_var b sn p vi = none →
      vars_loop b sn p (vi :: rest) = vars_loop b sn p rest) := by
  constructor
  · intro b sn p vi rest r h
    simp [vars_loop, h]
  · intro b sn p vi rest h
    simp [vars_loop, h]

/-- BTF fixture with TWO variables named "_foo" in the run-config section:
    the first sets priority 15, the second would set priority 99 -/
def btfTwoVars : Btf :=
  ⟨[ ⟨"", .ptrK 2⟩
   , ⟨"", .arrayK 15⟩
   , ⟨"", .structK 8 [⟨some "priority", 1⟩]⟩
   , ⟨"_foo", .varK 1 3⟩
   , ⟨"", .ptrK 6⟩
   , ⟨"", .arrayK 99⟩
   , ⟨"", .structK 8 [⟨some "priority", 5⟩]⟩
   , ⟨"_foo", .varK 1 7⟩
   , ⟨".xdp_run_config", .datasecK [⟨4, 8⟩, ⟨8, 8⟩]⟩ ]⟩

def pTwoVars : XdpProgram :=
  { xdp_program__new with prog_name := "foo", btf := some btfTwoVars }

/-- C10 witness: with two matching variables the loop result is the outcome
    of the first (priority 15), not the second (priority 99). -/
theorem run_config_first_match_only_witness :
    vars_loop btfTwoVars "_foo" pTwoVars [⟨4, 8⟩, ⟨8, 8⟩] =
      .ok { pTwoVars with run_prio := 15 } :=
  run_config_first_match_only.1 btfTwoVars "_foo" pTwoVars ⟨4, 8⟩ [⟨8, 8⟩]
    (.ok { pTwoVars with run_prio := 15 }) (by decide)

/-! ## Claim C9: xdp_program__free

  The destructor only performs effects (close, free); its observable
  behaviour is recorded as an effect descriptor computed from the handle,
  mirroring the close/free calls of the C function one by one. -/

structure FreeEffect where
  /-- descriptors passed to close, in call order -/
  closed_fds : List Int
  /-- whether bpf_object__close is called on the source object -/
  freed_obj : Bool
  /-- whether btf__free is called on the type-info view -/
  freed_btf : Bool
  deriving DecidableEq, Repr

/-- xdp_program__free: close link_fd and prog_fd when valid, free the two
    strings, and only when the source object is not external close it (or,
    with no source object, free the btf view) -/
def xdp_program__free (p : XdpProgram) : FreeEffect :=
  { closed_fds :=
      (if p.link_fd ≥ 0 then [p.link_fd] else []) ++
      (if p.prog_fd ≥ 0 then [p.prog_fd] else [])
  , freed_obj := !p.from_external_obj && p.bpf_obj
  , freed_btf := !p.from_external_obj && !p.bpf_obj && p.btf.isSome }

/-- C9: freeing a handle whose source object is externally owned closes only
    the descriptors owned by the handle and never frees the source object or the
    type-info view derived from it; the source object is freed with the
    handle exactly when the ownership flag marks it owned and it is
    present. -/
theorem free_respects_ownership :
    (∀ p : XdpProgram, p.from_external_obj = true →
      (xdp_program__free p).freed_obj = false ∧
      (xdp_program__free p).freed_btf = false ∧
      (∀ fd ∈ (xdp_program__free p).closed_fds,
        fd = p.link_fd ∨ fd = p.prog_fd)) ∧
    (∀ p : XdpProgram,
      (xdp_program__free p).freed_obj = true ↔
      (p.from_external_obj = false ∧ p.bpf_obj = true)) := by
  constructor
  · intro p hext
    refine ⟨by simp [xdp_program__free, hext], by simp [xdp_program__free, hext], ?_⟩
    intro fd hfd
    simp only [xdp_program__free, List.mem_append] at hfd
    rcases hfd with h | h
    · left
      by_cases hl : p.link_fd ≥ 0 <;> simp [hl] at h <;> simp [h]
    · right
      by_cases hl : p.prog_fd ≥ 0 <;> simp [hl] at h <;> simp [h]
  · intro p
    simp [xdp_program__free, Bool.and_eq_true]

/-- C9 witness: the ownership part applied to a concrete external handle. -/
theorem free_respects_ownership_witness :
    (xdp_program__free { xdp_program__new with
      from_external_obj := true, bpf_obj := true,
      btf := some btfS4, prog_fd := 5, link_fd := 6 }).freed_obj = false ∧
    (xdp_program__free { xdp_program__new with
      from_external_obj := true, bpf_obj := true,
      btf := some btfS4, prog_fd := 5, link_fd := 6 }).freed_btf = false ∧
    (∀ fd ∈ (xdp_program__free { xdp_program__new with
      from_external_obj := true, bpf_obj := true,
      btf := some btfS4, prog_fd := 5, link_fd := 6 }).closed_fds,
      fd = (6 : Int) ∨ fd = (5 : Int)) :=
  free_respects_ownership.1 _ rfl

/-! ## Claim C2: the factories and descriptor accounting

  xdp_program__from_id is embedded over an oracle describing the outcomes of
  the external calls it makes, threading the count of kernel descriptors the
  process has open.  bpf_prog_get_fd_by_id opens one descriptor on success;
  nothing on the error paths of the C function closes it again (the error
  path frees the struct with plain free()). -/

/-- the fields of bpf_prog_info that xdp_program__fill_from_fd reads -/
structure BpfProgInfoK where
  name : String
  tag : List Nat
  load_time : Nat
  /-- 0 means the program has no BTF -/
  btf_id : Nat
  deriving DecidableEq, Repr

/-- outcomes of the external calls made by xdp_program__from_id -/
structure FromIdEnv where
  /-- bpf_prog_get_fd_by_id: ok fd opens a new descriptor -/
  fd_lookup : Except Int Int
  /-- malloc inside xdp_program__new -/
  malloc_ok : Bool
  /-- bpf_obj_get_info_by_fd -/
  obj_info : Except Int BpfProgInfoK
  /-- strdup of the program name -/
  strdup_ok : Bool
  /-- btf__get_from_id, consulted when obj_info carries a btf id -/
  btf_fetch : Except Int Btf
  deriving Repr

/-- xdp_program__fill_from_fd: read program info, copy out the name, fetch
    the BTF view when the info names one, then record tag, load time and the
    descriptor on the handle -/
def xdp_program__fill_from_fd (env : FromIdEnv) (p : XdpProgram) (fd : Int) :
    Except Int XdpProgram :=
  match env.obj_info with
  | .error e => .error e
  | .ok info =>
    match (if p.prog_name = "" then
            (if env.strdup_ok then .ok { p with prog_name := info.name }
             else .error (-ENOMEM))
           else .ok p : Except Int XdpProgram) with
    | .error e => .error e
    | .ok p1 =>
      match (if info.btf_id ≠ 0 ∧ p1.btf = none then
              (match env.btf_fetch with
               | .error e => .error e
               | .ok btf => .ok { p1 with btf := some btf })
             else .ok p1 : Except Int XdpProgram) with
      | .error e => .error e
      | .ok p2 =>
        .ok { p2 with prog_tag := info.tag, load_time := info.load_time,
                      prog_fd := fd }

/-- xdp_program__from_id, threading the count of open descriptors.  On every
    error path after the id was resolved the C code runs free(xdp_prog) and
    returns, so the resolved descriptor stays open. -/
def xdp_program__from_id (env : FromIdEnv) (openFds : Nat) :
    Nat × Except Int XdpProgram :=
  match env.fd_lookup with
  | .error e => (openFds, .error e)
  | .ok fd =>
    let ofds := openFds + 1
    if ¬ env.malloc_ok then (ofds, .error (-ENOMEM))
    else
      match xdp_program__fill_from_fd env xdp_program__new fd with
      | .error e => (ofds, .error e)
      | .ok p1 =>
        match xdp_parse_run_config p1 with
        | .error e =>
          if e = -ENOENT then (ofds, .ok p1) else (ofds, .error e)
        | .ok p2 => (ofds, .ok p2)

/-- oracle for the failing run: the id resolves (one descriptor opened), the
    program info carries a btf id, the BTF fetch succeeds, and the fetched
    BTF then makes xdp_parse_run_config fail with -ENOTSUP -/
def fromIdFailEnv : FromIdEnv :=
  { fd_lookup := .ok 9
  , malloc_ok := true
  , obj_info := .ok { name := "foo", tag := [0,0,0,0,0,0,0,0], load_time := 11,
                      btf_id := 3 }
  , strdup_ok := true
  , btf_fetch := .ok btfBadMember }

/-- C2 is a code bug: after this failing xdp_program__from_id call the count
    of open descriptors is one higher than before the call (5 before, 6
    after), because the error path frees the handle with plain free()
    without closing the descriptor resolved from the id (nor freeing the
    name and BTF it acquired).  The claim, following the spec, requires the
    counts to be equal. -/
theorem from_id_error_leaks_descriptor :
    (xdp_program__from_id fromIdFailEnv 5).2 = .error (-ENOTSUP) ∧
    (xdp_program__from_id fromIdFailEnv 5).1 = 6 ∧
    (xdp_program__from_id fromIdFailEnv 5).1 ≠ 5 := by decide

/-! ## The pin store (pin_multiprog / unpin_multiprog)

  The filesystem registry is a set of directories and regular files, with
  paths as component lists (the bpffs mount prefix is elided, so the
  library subdirectory <mount>/xdp is the single component "xdp").
  bpf_obj_get_info_by_fd is elided by passing the dispatcher id directly,
  and the advisory lock manager (taken and released around both operations)
  has no effect on the registry contents. -/

abbrev Path := List String

structure Fs where
  dirs : List Path
  files : List Path
  deriving DecidableEq, Repr

def bpffs_dir : Path := ["xdp"]

def dispatch_dir (id : Nat) : Path := bpffs_dir ++ ["dispatch-" ++ toString id]

/-- mkdir with EEXIST treated as success, as both callers do -/
def fsMkdir (fs : Fs) (p : Path) : Fs :=
  if p ∈ fs.dirs then fs else { fs with dirs := p :: fs.dirs }

/-- bpf_obj_pin: creates the pin file, failing with -EEXIST when the path
    already exists -/
def bpf_obj_pin (fs : Fs) (p : Path) : Fs × Int :=
  if p ∈ fs.files ∨ p ∈ fs.dirs then (fs, -EEXIST)
  else ({ fs with files := p :: fs.files }, 0)

/-- unlink: removes a regular file; directories fail with -EISDIR and
    missing paths with -ENOENT -/
def fsUnlink (fs : Fs) (p : Path) : Fs × Int :=
  if p ∈ fs.files then
    ({ fs with files := fs.files.filter (fun q => decide (q ≠ p)) }, 0)
  else if p ∈ fs.dirs then (fs, -EISDIR)
  else (fs, -ENOENT)

/-- rmdir: fails with -ENOTEMPTY while the directory has entries -/
def fsRmdir (fs : Fs) (p : Path) : Fs × Int :=
  if fs.files.any (fun f => decide (f.dropLast = p)) ||
     fs.dirs.any (fun d => decide (d.dropLast = p)) then
    (fs, -ENOTEMPTY)
  else if p ∈ fs.dirs then
    ({ fs with dirs := fs.dirs.filter (fun q => decide (q ≠ p)) }, 0)
  else (fs, -ENOENT)

/-- readdir snapshot: the dot entries followed by the names of the files and
    subdirectories inside p -/
def dirEntries (fs : Fs) (p : Path) : List String :=
  "." :: ".." ::
    ((fs.files.filter (fun f => decide (f.dropLast = p))).map
       (fun f => f.getLastD "")
     ++ (fs.dirs.filter (fun d => decide (d.dropLast = p))).map
       (fun d => d.getLastD ""))

/-- the entry loop of unpin_multiprog: skip "." and "..", unlink everything
    else, stopping at the first error -/
def unlink_entries (dir : Path) : Fs → List String → Fs × Int
  | fs, [] => (fs, 0)
  | fs, n :: rest =>
    if n = "." ∨ n = ".." then unlink_entries dir fs rest
    else
      let r := fsUnlink fs (dir ++ [n])
      if r.2 = 0 then unlink_entries dir r.1 rest else r

/-- unpin_multiprog: resolve the per-dispatcher directory (an opendir
    failure is reported as -ENOENT), unlink every entry, then remove the
    directory; the first error is surfaced without continuing -/
def unpin_multiprog (id : Nat) (fs : Fs) : Fs × Int :=
  let pp := dispatch_dir id
  if pp ∈ fs.dirs then
    let r := unlink_entries pp fs (dirEntries fs pp)
    if r.2 = 0 then fsRmdir r.1 pp else r
  else (fs, -ENOENT)

/-- the pin loop of pin_multiprog: for each handle in slot order, require a
    link descriptor (else -EINVAL), pin it at <dir>/link-prog<i>, and record
    the DIRECTORY path in link_pin_path (this is what the C code stores).
    The returned list carries the updated handles. -/
def pin_loop (pp : Path) : Fs → List XdpProgram → Nat → Fs × List XdpProgram × Int
  | fs, [], _ => (fs, [], 0)
  | fs, p :: rest, i =>
    if p.link_fd < 0 then (fs, p :: rest, -EINVAL)
    else
      let r := bpf_obj_pin fs (pp ++ ["link-prog" ++ toString i])
      if r.2 = 0 then
        let q := { p with link_pin_path := some pp }
        let rec1 := pin_loop pp r.1 rest (i + 1)
        (rec1.1, q :: rec1.2.1, rec1.2.2)
      else (r.1, p :: rest, r.2)

/-- the unwind loop of pin_multiprog (err_unpin): for every handle with a
    recorded pin path, unlink that path (the return value of unlink is
    ignored, as in the C loop) and clear the field.  The C loop walks
    indices i..0; since the handles past the failing index carry no pin
    path, walking the whole list is equivalent. -/
def unwind_pins : Fs → List XdpProgram → Fs × List XdpProgram
  | fs, [] => (fs, [])
  | fs, p :: rest =>
    match p.link_pin_path with
    | some pth =>
      let r := fsUnlink fs pth
      let rec1 := unwind_pins r.1 rest
      (rec1.1, { p with link_pin_path := none } :: rec1.2)
    | none =>
      let rec1 := unwind_pins fs rest
      (rec1.1, p :: rec1.2)

/-- pin_multiprog: create the per-dispatcher directory (pre-existing is
    fine), pin the link descriptor of every handle beneath it, and on any error
    run the unwind loop before returning the error -/
def pin_multiprog (id : Nat) (fs : Fs) (progs : List XdpProgram) :
    Fs × List XdpProgram × Int :=
  let pp := dispatch_dir id
  let fs0 := fsMkdir fs pp
  let r := pin_loop pp fs0 progs 0
  if r.2.2 = 0 then r
  else
    let u := unwind_pins r.1 r.2.1
    (u.1, u.2, r.2.2)

/-! ## Claim C5 -/

/-- a handle that holds a link descriptor -/
def pLinked : XdpProgram := { xdp_program__new with link_fd := 3 }

/-- a handle with no link descriptor -/
def pUnlinked : XdpProgram := { xdp_program__new with link_fd := -1 }

def fsStart : Fs := ⟨[["xdp"]], []⟩

/-- C5 is a code bug: pinning [linked, unlinked] fails with -EINVAL as the
    claim says, but the unwind does NOT restore the registry: it unlinks
    link_pin_path, which stores the dispatch-7 DIRECTORY path rather than
    the pinned file path, so the unlink fails with -EISDIR (silently, the
    return value is ignored) and both the pinned file link-prog0 and the
    directory remain. -/
theorem pin_unwind_not_restoring :
    (pin_multiprog 7 fsStart [pLinked, pUnlinked]).2.2 = -EINVAL ∧
    ["xdp", "dispatch-7", "link-prog0"] ∈
      (pin_multiprog 7 fsStart [pLinked, pUnlinked]).1.files ∧
    ["xdp", "dispatch-7"] ∈ (pin_multiprog 7 fsStart [pLinked, pUnlinked]).1.dirs ∧
    (pin_multiprog 7 fsStart [pLinked, pUnlinked]).1 ≠ fsStart := by decide

/-! ## Claim C7 -/

theorem linkProgName_ne_dots (s : String) :
    ("link-prog" ++ s) ≠ "." ∧ ("link-prog" ++ s) ≠ ".." := by
  have h9 : ("link-prog" : String).length = 9 := rfl
  have h1 : ("." : String).length = 1 := rfl
  have h2 : (".." : String).length = 2 := rfl
  constructor <;> intro h <;> have hl := congrArg String.length h <;>
    rw [String.length_append] at hl <;> omega

theorem dispatch_dir_ne_nil (id : Nat) : dispatch_dir id ≠ [] := by
  simp [dispatch_dir, bpffs_dir]

theorem dispatch_dir_dropLast_ne (id : Nat) :
    (dispatch_dir id).dropLast ≠ dispatch_dir id := by
  intro h
  have := congrArg List.length h
  simp [dispatch_dir, bpffs_dir] at this

/-- a nonempty path inside directory d is d plus its final name -/
theorem parent_concat {f d : Path} (h : f.dropLast = d) (hd : d ≠ []) :
    f = d ++ [f.getLastD ""] := by
  have hf : f ≠ [] := by
    intro he
    rw [he] at h
    exact hd h.symm
  have hlast : f.getLastD "" = f.getLast hf := by
    rw [List.getLastD_eq_getLast?, List.getLast?_eq_getLast f hf]
    rfl
  rw [hlast, ← h]
  exact (List.dropLast_concat_getLast hf).symm

/-- the entry loop succeeds on a duplicate-free list of real (non-dot) file
    names inside d, removing exactly those files and touching nothing else -/
theorem unlink_entries_ok (d : Path) :
    ∀ (names : List String) (fs : Fs),
    names.Nodup →
    (∀ n ∈ names, n ≠ "." ∧ n ≠ "..") →
    (∀ n ∈ names, (d ++ [n]) ∈ fs.files) →
    (unlink_entries d fs names).2 = 0 ∧
    (unlink_entries d fs names).1.dirs = fs.dirs ∧
    (∀ f, f ∈ (unlink_entries d fs names).1.files ↔
      (f ∈ fs.files ∧ ∀ n ∈ names, f ≠ d ++ [n])) := by
  intro names
  induction names with
  | nil =>
    intro fs _ _ _
    simp [unlink_entries]
  | cons n rest ih =>
    intro fs hnd hdots hmem
    have hdot : ¬ (n = "." ∨ n = "..") := by
      have := hdots n (List.mem_cons_self n rest)
      tauto
    have hfmem : (d ++ [n]) ∈ fs.files := hmem n (List.mem_cons_self n rest)
    have hunl : fsUnlink fs (d ++ [n]) =
        ({ fs with files := fs.files.filter (fun q => decide (q ≠ d ++ [n])) }, 0) := by
      simp [fsUnlink, hfmem]
    have hred : unlink_entries d fs (n :: rest) =
        unlink_entries d
          { fs with files := fs.files.filter (fun q => decide (q ≠ d ++ [n])) }
          rest := by
      simp [unlink_entries, hdot, hunl]
    have hnin : n ∉ rest := (List.nodup_cons.mp hnd).1
    have hihmem : ∀ m ∈ rest,
        (d ++ [m]) ∈ (fs.files.filter (fun q => decide (q ≠ d ++ [n]))) := by
      intro m hm
      rw [List.mem_filter]
      refine ⟨hmem m (List.mem_cons_of_mem n hm), ?_⟩
      simp only [decide_eq_true_eq]
      intro he
      have : m = n := by
        have := List.append_cancel_left he
        simpa using this
      exact hnin (this ▸ hm)
    have hih := ih { fs with files := fs.files.filter (fun q => decide (q ≠ d ++ [n])) }
      (List.nodup_cons.mp hnd).2
      (fun m hm => hdots m (List.mem_cons_of_mem n hm))
      hihmem
    rw [hred]
    refine ⟨hih.1, hih.2.1, ?_⟩
    intro f
    rw [hih.2.2 f]
    simp only [List.mem_filter, decide_eq_true_eq, List.mem_cons]
    constructor
    · rintro ⟨⟨hf, hfn⟩, hrest⟩
      exact ⟨hf, fun m hm => by
        rcases hm with rfl | hm
        · exact hfn
        · exact hrest m hm⟩
    · rintro ⟨hf, hall⟩
      exact ⟨⟨hf, hall n (Or.inl rfl)⟩, fun m hm => hall m (Or.inr hm)⟩

/-- unpin_multiprog succeeds on a well-formed registry that contains the
    per-dispatcher directory (duplicate-free files, no dot-named files, no
    subdirectories inside the dispatch directory), and removes it -/
theorem unpin_clears (fs : Fs) (id : Nat)
    (hmem : dispatch_dir id ∈ fs.dirs)
    (hnd : fs.files.Nodup)
    (hdots : ∀ f ∈ fs.files, f.getLastD "" ≠ "." ∧ f.getLastD "" ≠ "..")
    (hsub : ∀ d ∈ fs.dirs, d.dropLast ≠ dispatch_dir id) :
    (unpin_multiprog id fs).2 = 0 ∧
    dispatch_dir id ∉ (unpin_multiprog id fs).1.dirs := by
  have hppne : dispatch_dir id ≠ [] := dispatch_dir_ne_nil id
  -- the snapshot contains no subdirectory names
  have hdirpart : (fs.dirs.filter
      (fun d => decide (d.dropLast = dispatch_dir id))) = [] := by
    rw [List.filter_eq_nil_iff]
    intro a ha
    simp only [decide_eq_true_eq]
    exact hsub a ha
  have hentries : dirEntries fs (dispatch_dir id) =
      "." :: ".." :: (fs.files.filter
        (fun f => decide (f.dropLast = dispatch_dir id))).map
        (fun f => f.getLastD "") := by
    simp [dirEntries, hdirpart]
  set names := (fs.files.filter
      (fun f => decide (f.dropLast = dispatch_dir id))).map
      (fun f => f.getLastD "") with hnames
  -- hypotheses of unlink_entries_ok for the snapshot tail
  have hnodup : names.Nodup := by
    refine List.Nodup.map_on ?_ (List.Nodup.filter _ hnd)
    intro x hx y hy hxy
    rw [List.mem_filter] at hx hy
    have hx2 : x = dispatch_dir id ++ [x.getLastD ""] :=
      parent_concat (by simpa using hx.2) hppne
    have hy2 : y = dispatch_dir id ++ [y.getLastD ""] :=
      parent_concat (by simpa using hy.2) hppne
    rw [hx2, hy2, hxy]
  have hdotnames : ∀ n ∈ names, n ≠ "." ∧ n ≠ ".." := by
    intro n hn
    rw [hnames, List.mem_map] at hn
    obtain ⟨f, hf, rfl⟩ := hn
    rw [List.mem_filter] at hf
    exact hdots f hf.1
  have hmemnames : ∀ n ∈ names, (dispatch_dir id ++ [n]) ∈ fs.files := by
    intro n hn
    rw [hnames, List.mem_map] at hn
    obtain ⟨f, hf, rfl⟩ := hn
    rw [List.mem_filter] at hf
    have := parent_concat (by simpa using hf.2) hppne
    rw [← this]
    exact hf.1
  have hok := unlink_entries_ok (dispatch_dir id) names fs hnodup hdotnames hmemnames
  -- the two dot entries are skipped
  have hskipdots : unlink_entries (dispatch_dir id) fs
      (dirEntries fs (dispatch_dir id)) =
      unlink_entries (dispatch_dir id) fs names := by
    rw [hentries]
    simp [unlink_entries]
  set T := unlink_entries (dispatch_dir id) fs names with hT
  -- rmdir preconditions
  have hnofile : T.1.files.any
      (fun f => decide (f.dropLast = dispatch_dir id)) = false := by
    rw [List.any_eq_false]
    intro f hf
    simp only [decide_eq_true_eq]
    intro hunder
    have hmemf := (hok.2.2 f).mp hf
    have hshape : f = dispatch_dir id ++ [f.getLastD ""] :=
      parent_concat hunder hppne
    have hnm : f.getLastD "" ∈ names := by
      rw [hnames, List.mem_map]
      exact ⟨f, List.mem_filter.mpr ⟨hmemf.1, by simpa using hunder⟩, rfl⟩
    exact hmemf.2 (f.getLastD "") hnm hshape
  have hnodir : T.1.dirs.any
      (fun d => decide (d.dropLast = dispatch_dir id)) = false := by
    rw [List.any_eq_false]
    intro d hd
    simp only [decide_eq_true_eq]
    rw [hok.2.1] at hd
    exact hsub d hd
  have hrmdir : fsRmdir T.1 (dispatch_dir id) =
      (⟨T.1.dirs.filter (fun q => decide (q ≠ dispatch_dir id)), T.1.files⟩, 0) := by
    have hmem2 : dispatch_dir id ∈ T.1.dirs := by rw [hok.2.1]; exact hmem
    simp [fsRmdir, hnofile, hnodir, hmem2]
  have hunpin : unpin_multiprog id fs =
      (⟨T.1.dirs.filter (fun q => decide (q ≠ dispatch_dir id)), T.1.files⟩, 0) := by
    simp only [unpin_multiprog]
    rw [if_pos hmem, hskipdots, if_pos hok.1]
    exact hrmdir
  rw [hunpin]
  refine ⟨rfl, ?_⟩
  simp [List.mem_filter]

/-- a successful pin loop leaves the directories untouched and only adds
    duplicate-free files named link-prog<j> inside the pin directory -/
theorem pin_loop_inv (pp : Path) :
    ∀ (l : List XdpProgram) (fs : Fs) (i : Nat),
    (pin_loop pp fs l i).2.2 = 0 →
    (pin_loop pp fs l i).1.dirs = fs.dirs ∧
    (fs.files.Nodup → (pin_loop pp fs l i).1.files.Nodup) ∧
    (∀ f ∈ (pin_loop pp fs l i).1.files,
      f ∈ fs.files ∨ (f.dropLast = pp ∧
        ∃ j : Nat, f.getLastD "" = "link-prog" ++ toString j)) := by
  intro l
  induction l with
  | nil =>
    intro fs i _
    exact ⟨rfl, fun h => h, fun f hf => Or.inl hf⟩
  | cons p rest ih =>
    intro fs i hok
    by_cases hlfd : p.link_fd < 0
    · rw [show pin_loop pp fs (p :: rest) i = (fs, p :: rest, -EINVAL) by
        simp [pin_loop, hlfd]] at hok
      norm_num [EINVAL] at hok
    · by_cases hex : (pp ++ ["link-prog" ++ toString i]) ∈ fs.files ∨
          (pp ++ ["link-prog" ++ toString i]) ∈ fs.dirs
      · rw [show pin_loop pp fs (p :: rest) i =
            (fs, p :: rest, -EEXIST) by
          simp [pin_loop, hlfd, bpf_obj_pin, hex]
          norm_num [EEXIST]] at hok
        norm_num [EEXIST] at hok
      · have hpin : bpf_obj_pin fs (pp ++ ["link-prog" ++ toString i]) =
            ({ fs with files := (pp ++ ["link-prog" ++ toString i]) :: fs.files }, 0) := by
          simp [bpf_obj_pin, hex]
        have hred : pin_loop pp fs (p :: rest) i =
            ((pin_loop pp { fs with
                files := (pp ++ ["link-prog" ++ toString i]) :: fs.files } rest (i + 1)).1,
             { p with link_pin_path := some pp } ::
               (pin_loop pp { fs with
                 files := (pp ++ ["link-prog" ++ toString i]) :: fs.files } rest (i + 1)).2.1,
             (pin_loop pp { fs with
               files := (pp ++ ["link-prog" ++ toString i]) :: fs.files } rest (i + 1)).2.2) := by
          simp [pin_loop, hlfd, hpin]
        rw [hred] at hok ⊢
        simp only at hok
        have hih := ih { fs with
          files := (pp ++ ["link-prog" ++ toString i]) :: fs.files } (i + 1) hok
        refine ⟨hih.1, ?_, ?_⟩
        · intro hnd
          refine hih.2.1 ?_
          simp only [List.nodup_cons]
          exact ⟨fun hc => hex (Or.inl hc), hnd⟩
        · intro f hf
          rcases hih.2.2 f hf with hin | hshape
          · rcases List.mem_cons.mp hin with rfl | hin2
            · right
              refine ⟨by simp [List.dropLast_concat], ⟨i, by simp [List.getLastD_concat]⟩⟩
            · exact Or.inl hin2
          · exact Or.inr hshape

/-- C7: (1) after a successful pin of a dispatcher id on a well-formed
    registry, unpin succeeds and leaves no dispatch-<id> directory, and a
    second unpin of the same id returns -ENOENT; (2) the entry loop of
    unpin surfaces the first unlink error without continuing. -/
theorem pin_unpin_cycle :
    (∀ (fs : Fs) (progs : List XdpProgram) (id : Nat),
      fs.files.Nodup →
      (∀ f ∈ fs.files, f.getLastD "" ≠ "." ∧ f.getLastD "" ≠ "..") →
      (∀ d ∈ fs.dirs, d.dropLast ≠ dispatch_dir id) →
      (pin_multiprog id fs progs).2.2 = 0 →
      (unpin_multiprog id (pin_multiprog id fs progs).1).2 = 0 ∧
      dispatch_dir id ∉ (unpin_multiprog id (pin_multiprog id fs progs).1).1.dirs ∧
      (unpin_multiprog id
        (unpin_multiprog id (pin_multiprog id fs progs).1).1).2 = -ENOENT) ∧
    (∀ (dir : Path) (n : String) (rest : List String) (fs : Fs),
      n ≠ "." → n ≠ ".." → (fsUnlink fs (dir ++ [n])).2 ≠ 0 →
      unlink_entries dir fs (n :: rest) = fsUnlink fs (dir ++ [n])) := by
  constructor
  · intro fs progs id hnd hdots hsub hpin
    set fs0 := fsMkdir fs (dispatch_dir id) with hfs0
    have hfs0files : fs0.files = fs.files := by
      rw [hfs0]; unfold fsMkdir; split_ifs <;> rfl
    have hfs0mem : dispatch_dir id ∈ fs0.dirs := by
      rw [hfs0]; unfold fsMkdir; split_ifs with h
      · exact h
      · exact List.mem_cons_self _ _
    have hfs0dirs : ∀ d ∈ fs0.dirs, d = dispatch_dir id ∨ d ∈ fs.dirs := by
      intro d hd
      rw [hfs0] at hd; unfold fsMkdir at hd; split_ifs at hd with h
      · exact Or.inr hd
      · rcases List.mem_cons.mp hd with rfl | hd2
        · exact Or.inl rfl
        · exact Or.inr hd2
    -- the pin succeeded, so the result is the raw pin_loop output
    have hploop : (pin_multiprog id fs progs).1 =
        (pin_loop (dispatch_dir id) fs0 progs 0).1 ∧
        (pin_loop (dispatch_dir id) fs0 progs 0).2.2 = 0 := by
      by_cases h : (pin_loop (dispatch_dir id) fs0 progs 0).2.2 = 0
      · constructor
        · simp only [pin_multiprog, ← hfs0, if_pos h]
        · exact h
      · exfalso
        apply h
        simp only [pin_multiprog, ← hfs0, if_neg h] at hpin
        exact hpin
    obtain ⟨hres, hloopok⟩ := hploop
    have hinv := pin_loop_inv (dispatch_dir id) progs fs0 0 hloopok
    set fsP := (pin_loop (dispatch_dir id) fs0 progs 0).1 with hfsP
    -- carry the well-formedness over the pin
    have hPmem : dispatch_dir id ∈ fsP.dirs := by rw [hinv.1]; exact hfs0mem
    have hPnd : fsP.files.Nodup := hinv.2.1 (by rw [hfs0files]; exact hnd)
    have hPdots : ∀ f ∈ fsP.files, f.getLastD "" ≠ "." ∧ f.getLastD "" ≠ ".." := by
      intro f hf
      rcases hinv.2.2 f hf with hin | ⟨_, j, hj⟩
      · rw [hfs0files] at hin
        exact hdots f hin
      · rw [hj]
        exact linkProgName_ne_dots (toString j)
    have hPsub : ∀ d ∈ fsP.dirs, d.dropLast ≠ dispatch_dir id := by
      intro d hd
      rw [hinv.1] at hd
      rcases hfs0dirs d hd with rfl | hd2
      · exact dispatch_dir_dropLast_ne id
      · exact hsub d hd2
    have hclear := unpin_clears fsP id hPmem hPnd hPdots hPsub
    rw [hres]
    refine ⟨hclear.1, hclear.2, ?_⟩
    -- second unpin: the directory is gone
    set fs2 := (unpin_multiprog id fsP).1 with hfs2
    have hsecond : unpin_multiprog id fs2 = (fs2, -ENOENT) := by
      simp only [unpin_multiprog]
      rw [if_neg hclear.2]
    rw [hsecond]
  · intro dir n rest fs hd1 hd2 herr
    have hdot : ¬ (n = "." ∨ n = "..") := by tauto
    simp [unlink_entries, hdot, herr]

/-- C7 witness: a concrete pin/unpin cycle for dispatcher id 3 with one
    linked handle on a registry holding only the library directory. -/
theorem pin_unpin_cycle_witness :
    (unpin_multiprog 3 (pin_multiprog 3 fsStart [pLinked]).1).2 = 0 ∧
    dispatch_dir 3 ∉ (unpin_multiprog 3 (pin_multiprog 3 fsStart [pLinked]).1).1.dirs ∧
    (unpin_multiprog 3
      (unpin_multiprog 3 (pin_multiprog 3 fsStart [pLinked]).1).1).2 = -ENOENT :=
  pin_unpin_cycle.1 fsStart [pLinked] 3 (by decide) (by decide) (by decide) (by decide)

/-! ## The attacher (xdp_attach_programs)

  The external calls are abstracted as oracles: composing the dispatcher,
  loading a single program and pinning return ints, and the kernel
  interface-attach primitive answers the n-th bpf_set_link_xdp_fd call with
  net n.  The trace records every external call in order, which is what the
  no-syscall part of the empty-input claim and the remediation sequence are
  stated over. -/

def XDP_FLAGS_UPDATE_IF_NOEXIST : Nat := 1
def XDP_FLAGS_SKB_MODE : Nat := 2
def XDP_FLAGS_DRV_MODE : Nat := 4
def XDP_FLAGS_HW_MODE : Nat := 8
def XDP_FLAGS_MODES : Nat := 14

inductive XdpAttachMode where
  | unspec | skb | native | hw
  deriving DecidableEq, Repr

/-- the switch on mode in xdp_attach_programs -/
def mode_flag : XdpAttachMode → Nat
  | .skb => XDP_FLAGS_SKB_MODE
  | .native => XDP_FLAGS_DRV_MODE
  | .hw => XDP_FLAGS_HW_MODE
  | .unspec => 0

inductive SysEvent where
  /-- bpf_set_link_xdp_fd ifindex fd flags -/
  | setLink (ifindex : Int) (fd : Int) (flags : Nat)
  /-- gen_xdp_multiprog -/
  | compose
  /-- xdp_program__load of the single program -/
  | load
  /-- pin_multiprog -/
  | pin
  deriving DecidableEq, Repr

structure AttachEnv where
  /-- result of gen_xdp_multiprog: the dispatcher fd, or a negative errno -/
  compose : Int
  /-- return value of xdp_program__load for the single-program path (the C
      code assigns this return value, 0 on success, to prog_fd) -/
  load : Int
  /-- result of pin_multiprog -/
  pin : Int
  /-- answer of the kernel attach primitive to its n-th invocation -/
  net : Nat → Int

/-- xdp_attach_programs.  qsort only reorders the array handed to
    gen_xdp_multiprog, which is abstracted by the compose oracle, so the
    sort is not modelled separately. -/
def xdp_attach_programs (env : AttachEnv) (progs : List XdpProgram)
    (ifindex : Int) (force : Bool) (mode : XdpAttachMode) :
    List SysEvent × Int :=
  match progs with
  | [] => ([], -EINVAL)
  | p :: rest =>
    let ev0 : List SysEvent × Int :=
      if rest ≠ [] then ([.compose], env.compose)
      else if p.prog_fd ≥ 0 then ([], p.prog_fd)
      else ([.load], env.load)
    let prog_fd := ev0.2
    if prog_fd < 0 then (ev0.1, prog_fd)
    else
      let ev1 : List SysEvent × Int :=
        if rest ≠ [] then ([.pin], env.pin) else ([], 0)
      if ev1.2 ≠ 0 then (ev0.1 ++ ev1.1, ev1.2)
      else
        let xdp_flags :=
          mode_flag mode |||
            (if force then 0 else XDP_FLAGS_UPDATE_IF_NOEXIST)
        let e1 := env.net 0
        let rem : List SysEvent × Int :=
          if e1 = -EEXIST ∧ xdp_flags &&& XDP_FLAGS_UPDATE_IF_NOEXIST = 0 then
            let opp := (xdp_flags &&& (4294967295 ^^^ XDP_FLAGS_MODES)) |||
                       (if mode = .skb then XDP_FLAGS_DRV_MODE
                        else XDP_FLAGS_SKB_MODE)
            let e2 := env.net 1
            if e2 = 0 then
              ([.setLink ifindex prog_fd xdp_flags,
                .setLink ifindex (-1) opp,
                .setLink ifindex prog_fd xdp_flags], env.net 2)
            else
              ([.setLink ifindex prog_fd xdp_flags,
                .setLink ifindex (-1) opp], e2)
          else ([.setLink ifindex prog_fd xdp_flags], e1)
        if rem.2 < 0 then (ev0.1 ++ ev1.1 ++ rem.1, rem.2)
        else (ev0.1 ++ ev1.1 ++ rem.1, prog_fd)

/-! ## Claim C8 -/

/-- C8: attaching an empty handle array fails with -EINVAL before any
    external call is made: the trace is empty, whatever the oracles would
    answer. -/
theorem attach_empty_einval (env : AttachEnv) (ifindex : Int) (force : Bool)
    (mode : XdpAttachMode) :
    xdp_attach_programs env [] ifindex force mode = ([], -EINVAL) := rfl

/-! ## Claim C6 -/

theorem mode_flag_and_one (mode : XdpAttachMode) :
    mode_flag mode &&& XDP_FLAGS_UPDATE_IF_NOEXIST = 0 := by
  cases mode <;> decide

theorem mode_flag_masked (mode : XdpAttachMode) :
    mode_flag mode &&& (4294967295 ^^^ XDP_FLAGS_MODES) = 0 := by
  cases mode <;> decide

/-- C6: for a single already-loaded handle, (1) with force = true (so the
    only-if-unset flag is absent) a first attach answered -EEXIST makes the
    attacher call the primitive with the sentinel descriptor -1 under the
    flags of the opposite mode and then retry the original attach under the
    original flags; (2) with force = false the only-if-unset flag is set on
    the single attach call and no remediation happens, whatever the first
    answer. -/
theorem attach_cross_mode_remediation :
    (∀ (env : AttachEnv) (p : XdpProgram) (ifindex : Int) (mode : XdpAttachMode),
      p.prog_fd ≥ 0 → env.net 0 = -EEXIST → env.net 1 = 0 → env.net 2 = 0 →
      xdp_attach_programs env [p] ifindex true mode =
        ([.setLink ifindex p.prog_fd (mode_flag mode),
          .setLink ifindex (-1)
            (if mode = .skb then XDP_FLAGS_DRV_MODE else XDP_FLAGS_SKB_MODE),
          .setLink ifindex p.prog_fd (mode_flag mode)], p.prog_fd)) ∧
    (∀ (env : AttachEnv) (p : XdpProgram) (ifindex : Int) (mode : XdpAttachMode),
      p.prog_fd ≥ 0 →
      (xdp_attach_programs env [p] ifindex false mode).1 =
        [.setLink ifindex p.prog_fd
          (mode_flag mode ||| XDP_FLAGS_UPDATE_IF_NOEXIST)]) := by
  constructor
  · intro env p ifindex mode hfd hn0 hn1 hn2
    have hnotlt : ¬ p.prog_fd < 0 := by omega
    have hflag : mode_flag mode ||| 0 = mode_flag mode := Nat.or_zero _
    simp only [xdp_attach_programs, ne_eq, not_true_eq_false, ite_false,
      ite_true, hfd, if_pos hfd, if_neg hnotlt]
    simp only [hflag, hn0, hn1, hn2, mode_flag_and_one, mode_flag_masked,
      and_true, Nat.zero_or]
    norm_num
  · intro env p ifindex mode hfd
    have hnotlt : ¬ p.prog_fd < 0 := by omega
    have hbit : (mode_flag mode ||| XDP_FLAGS_UPDATE_IF_NOEXIST) &&&
        XDP_FLAGS_UPDATE_IF_NOEXIST ≠ 0 := by
      cases mode <;> decide
    simp only [xdp_attach_programs, ne_eq, not_true_eq_false, ite_false,
      ite_true, hfd, if_pos hfd, if_neg hnotlt]
    norm_num [hbit]
    split_ifs <;> rfl

/-- oracle for the C6 witness: the first attach answers -EEXIST, the detach
    and the retry succeed -/
def remEnv : AttachEnv :=
  { compose := -EINVAL
  , load := -EINVAL
  , pin := -EINVAL
  , net := fun n => if n = 0 then -EEXIST else 0 }

def pLoaded : XdpProgram := { xdp_program__new with prog_fd := 4 }

/-- C6 witness: the remediation sequence for a concrete loaded handle in skb
    mode against an interface holding a native-mode program. -/
theorem attach_cross_mode_remediation_witness :
    xdp_attach_programs remEnv [pLoaded] 42 true .skb =
      ([.setLink 42 4 XDP_FLAGS_SKB_MODE,
        .setLink 42 (-1) XDP_FLAGS_DRV_MODE,
        .setLink 42 4 XDP_FLAGS_SKB_MODE], 4) := by
  have h := attach_cross_mode_remediation.1 remEnv pLoaded 42 .skb
    (by decide) (by decide) (by decide) (by decide)
  simpa using h

end Libxdp
